import Mathlib

/-! Shallow embedding of the bouncing-ball engine in `src/bouncing_ball.js`:
kinematic state per ball, the drag state machine (`DragState`,
`Ball.start_drag`, `Ball.stop_drag`), the per-frame integrator
(`advance_frame`), the boundary collision resolver (`handle_collisions`),
ball selection (`select_ball`) and the randomize effect
(`infinite_improbability_drive`).

Modelling conventions.  The SVG attributes `cx`, `cy`, `r` only ever
receive integer values and are read back through `parseInt`, so they are
modelled as `Int`; velocities are likewise integer valued in every
reachable state (gravity adds 1, resistance subtracts a `Math.round`ed
amount, a drag commit copies integer pointer differences, the randomize
effect stores `Math.round`ed draws).  `Math.random()` results are passed
in explicitly as rationals in `[0,1)` (every IEEE double in that interval
is rational).  JavaScript `Math.round` rounds half toward positive
infinity and so coincides with Mathlib's `round`.  The SVG fill colour is
render-only state that no claim touches and is not modelled. -/

namespace BouncingBall

/-- State of a ball while it is dragged (source `DragState`): the
pointer-to-center offset, the estimated drag velocity, and the previous
frame's pointer position.  The source constructor receives only the two
offsets; velocity and the stored pointer position start at 0 (not at the
current pointer position). -/
structure DragState where
  offset_x : Int
  offset_y : Int
  vel_x : Int
  vel_y : Int
  pos_x : Int
  pos_y : Int
  deriving DecidableEq

/-- The source constructor `new DragState(offset_x, offset_y)`. -/
def DragState.init (offset_x offset_y : Int) : DragState :=
  { offset_x := offset_x, offset_y := offset_y,
    vel_x := 0, vel_y := 0, pos_x := 0, pos_y := 0 }

/-- Source `DragState.update_velocity`: the drag velocity is the pointer
displacement since the stored previous position, which is then advanced. -/
def DragState.update_velocity (ds : DragState) (new_x new_y : Int) : DragState :=
  { ds with vel_x := new_x - ds.pos_x, vel_y := new_y - ds.pos_y,
            pos_x := new_x, pos_y := new_y }

/-- A ball (source `Ball` together with its SVG attributes `cx`, `cy`,
`r` and the highlight `stroke`). -/
structure Ball where
  cx : Int
  cy : Int
  r : Int
  vel_x : Int
  vel_y : Int
  drag_state : Option DragState
  stroke : Bool
  deriving DecidableEq

/-- Source `Ball.start_drag`: zero the velocity and create a `DragState`
whose offsets are the pointer position minus the ball center. -/
def Ball.start_drag (b : Ball) (mouse_x mouse_y : Int) : Ball :=
  { b with vel_x := 0, vel_y := 0,
           drag_state := some (DragState.init (mouse_x - b.cx) (mouse_y - b.cy)) }

/-- Source `Ball.stop_drag`: copy the drag-estimated velocity into the
ball and discard the `DragState`.  Every call site in the source guards on
`drag_state != null`; on a free ball (where the source would throw) the
model returns the ball unchanged. -/
def Ball.stop_drag (b : Ball) : Ball :=
  match b.drag_state with
  | some ds => { b with vel_x := ds.vel_x, vel_y := ds.vel_y, drag_state := none }
  | none => b

/-- The guarded release appearing in each branch of source
`handle_collisions`: `if (balls[i].drag_state != null) balls[i].stop_drag()`. -/
def release (b : Ball) : Ball :=
  if b.drag_state.isSome then b.stop_drag else b

/-- Left-wall block of source `handle_collisions`: if `cx - r <= 0`,
release a dragged ball, negate `vel_x`, and set `cx = 1 + r`. -/
def collide_left (b : Ball) : Ball :=
  if b.cx - b.r ≤ 0 then
    let b1 := release b
    { b1 with vel_x := -b1.vel_x, cx := 1 + b1.r }
  else b

/-- Right-wall block of source `handle_collisions`: if `cx + r >= width`,
release a dragged ball, negate `vel_x`, and set `cx = width - 1 - r`. -/
def collide_right (w : Int) (b : Ball) : Ball :=
  if b.cx + b.r ≥ w then
    let b1 := release b
    { b1 with vel_x := -b1.vel_x, cx := w - 1 - b1.r }
  else b

/-- Top-wall block of source `handle_collisions`: if `cy - r <= 0`,
release a dragged ball, negate `vel_y`, and set `cy = 1 + r`. -/
def collide_top (b : Ball) : Ball :=
  if b.cy - b.r ≤ 0 then
    let b1 := release b
    { b1 with vel_y := -b1.vel_y, cy := 1 + b1.r }
  else b

/-- Bottom-wall block of source `handle_collisions`: if `cy + r >= height`,
release a dragged ball, negate `vel_y`, and set `cy = height - 1 - r`. -/
def collide_bottom (h : Int) (b : Ball) : Ball :=
  if b.cy + b.r ≥ h then
    let b1 := release b
    { b1 with vel_y := -b1.vel_y, cy := h - 1 - b1.r }
  else b

/-- One ball's share of source `handle_collisions`: the four wall blocks
run in sequence, each reading the state left by the previous one. -/
def handle_ball (w h : Int) (b : Ball) : Ball :=
  collide_bottom h (collide_top (collide_right w (collide_left b)))

/-- Source `handle_collisions` over the whole ball list. -/
def handle_collisions (w h : Int) (balls : List Ball) : List Ball :=
  balls.map (handle_ball w h)

/-- Resistance acceleration on the x velocity component (source
`advance_frame`):
`Math.round(Math.sqrt(vel_y^2 + vel_x^2) * vel_x * 0.0002 * r)`. -/
noncomputable def x_accel (b : Ball) : Int :=
  round (Real.sqrt ((b.vel_y : ℝ) ^ 2 + (b.vel_x : ℝ) ^ 2) * (b.vel_x : ℝ) * 0.0002 * (b.r : ℝ))

/-- Resistance acceleration on the y velocity component (source
`advance_frame`). -/
noncomputable def y_accel (b : Ball) : Int :=
  round (Real.sqrt ((b.vel_y : ℝ) ^ 2 + (b.vel_x : ℝ) ^ 2) * (b.vel_y : ℝ) * 0.0002 * (b.r : ℝ))

/-- Modelled from the spec (section 4.2), for comparison with the
source's `x_accel`: per-component resistance acceleration
`round(speed * vx * k * diameter)` with `k = 0.0002` and
`diameter = 2 * radius`. -/
noncomputable def x_accel_spec (b : Ball) : Int :=
  round (Real.sqrt ((b.vel_y : ℝ) ^ 2 + (b.vel_x : ℝ) ^ 2) * (b.vel_x : ℝ) * 0.0002 *
    (2 * (b.r : ℝ)))

/-- One ball's share of source `advance_frame`: gravity and resistance on
free balls (with the overshoot clamp exactly as written, comparing the
signed acceleration against the absolute velocity component), position
integration, then pointer-follow and the drag velocity update for a held
ball. -/
noncomputable def step_ball (gravity resistance : Bool) (mouse_x mouse_y : Int) (b : Ball) :
    Ball :=
  let b := if gravity && b.drag_state.isNone then { b with vel_y := b.vel_y + 1 } else b
  let b :=
    if resistance && b.drag_state.isNone then
      let xa := x_accel b
      let ya := y_accel b
      let b1 := if xa > |b.vel_x| then { b with vel_x := 0 } else { b with vel_x := b.vel_x - xa }
      if ya > |b1.vel_y| then { b1 with vel_y := 0 } else { b1 with vel_y := b1.vel_y - ya }
    else b
  let b := { b with cx := b.cx + b.vel_x, cy := b.cy + b.vel_y }
  match b.drag_state with
  | some ds =>
      { b with cx := mouse_x - ds.offset_x, cy := mouse_y - ds.offset_y,
               drag_state := some (ds.update_velocity mouse_x mouse_y) }
  | none => b

/-- Source `advance_frame`: the per-ball integration loop followed by
`handle_collisions`. -/
noncomputable def advance_frame (gravity resistance : Bool) (mouse_x mouse_y w h : Int)
    (balls : List Ball) : List Ball :=
  handle_collisions w h (balls.map (step_ball gravity resistance mouse_x mouse_y))

/-- Removing the highlight attributes from one ball (the clearing loop of
source `select_ball`). -/
def clear_stroke (b : Ball) : Ball := { b with stroke := false }

/-- The registry and the two external controls (source globals `balls`,
`ball_selector.value`, `ball_size_range.value`). -/
structure AppState where
  balls : List Ball
  selector_value : Nat
  size_range_value : Int
  deriving DecidableEq

/-- Source `select_ball`: set the selector, copy the selected ball's
radius into the size slider, clear every highlight, then highlight the
selected ball.  `ball_num` is 1-based.  On an out-of-range index (where
the source would throw on `balls[ball_num - 1]`) the model leaves the
state unchanged. -/
def select_ball (st : AppState) (ball_num : Nat) : AppState :=
  match st.balls[ball_num - 1]? with
  | none => st
  | some b =>
      { balls := (st.balls.map clear_stroke).set (ball_num - 1) { b with stroke := true },
        selector_value := ball_num,
        size_range_value := b.r }

/-- Number of highlighted balls. -/
def highlight_count (st : AppState) : Nat :=
  st.balls.countP (fun b => b.stroke)

/-- One ball's worth of `Math.random()` draws in source
`infinite_improbability_drive` (the three colour draws are render-only
and not modelled).  Each field stands for one draw in `[0,1)`. -/
structure Draws where
  dcx : ℚ
  dcy : ℚ
  dr : ℚ
  dvx : ℚ
  dvy : ℚ
  deriving DecidableEq

/-- Every draw lies in `[0,1)`, as `Math.random()` guarantees. -/
def ValidDraws (d : Draws) : Prop :=
  0 ≤ d.dcx ∧ d.dcx < 1 ∧ 0 ≤ d.dcy ∧ d.dcy < 1 ∧ 0 ≤ d.dr ∧ d.dr < 1 ∧
    0 ≤ d.dvx ∧ d.dvx < 1 ∧ 0 ≤ d.dvy ∧ d.dvy < 1

instance : DecidablePred ValidDraws := fun d => by unfold ValidDraws; infer_instance

/-- Per-ball body of source `infinite_improbability_drive`:
`cx = round(random * width)`, `cy = round(random * height)`,
`r = round(random * 145) + 5`, `vel_x = round(random * 50)`,
`vel_y = round(random * 50)`. -/
def randomize_ball (d : Draws) (w h : Int) (b : Ball) : Ball :=
  { b with cx := round (d.dcx * (w : ℚ)),
           cy := round (d.dcy * (h : ℚ)),
           r := round (d.dr * 145) + 5,
           vel_x := round (d.dvx * 50),
           vel_y := round (d.dvy * 50) }

/-- The randomize loop over the ball list, ball `i` consuming `draws i`. -/
def randomize_balls (draws : Nat → Draws) (w h : Int) : Nat → List Ball → List Ball
  | _, [] => []
  | i, b :: rest => randomize_ball (draws i) w h b :: randomize_balls draws w h (i + 1) rest

/-- Source `infinite_improbability_drive`: randomize every ball, then
`select_ball(ball_selector.value)` to resync the size slider. -/
def infinite_improbability_drive (draws : Nat → Draws) (w h : Int) (st : AppState) :
    AppState :=
  select_ball { st with balls := randomize_balls draws w h 0 st.balls } st.selector_value

/-- A held ball carries zero stored velocity. -/
def HeldZero (b : Ball) : Prop :=
  b.drag_state.isSome = true → b.vel_x = 0 ∧ b.vel_y = 0

instance : DecidablePred HeldZero := fun b => by unfold HeldZero; infer_instance

/-- Field ranges asserted by the randomize claim: radius in `[5,150]`,
center within the viewport, velocity components in `[0,50]`. -/
def InRange (w h : Int) (b : Ball) : Prop :=
  5 ≤ b.r ∧ b.r ≤ 150 ∧ 0 ≤ b.cx ∧ b.cx ≤ w ∧ 0 ≤ b.cy ∧ b.cy ≤ h ∧
    0 ≤ b.vel_x ∧ b.vel_x ≤ 50 ∧ 0 ≤ b.vel_y ∧ b.vel_y ≤ 50

/-- Free ball whose state triggers the unclamped negative-component
overshoot in the resistance step. -/
def ballC1 : Ball := ⟨400, 300, 150, -50, 50, none, false⟩

/-- Free ball used for the drag-commit computation. -/
def ballC2 : Ball := ⟨3, 4, 20, 7, 8, none, false⟩

/-- Ball wider than the viewport, for the containment counterexample. -/
def ballC3c : Ball := ⟨0, 300, 500, 0, 0, none, false⟩

/-- Ball overlapping the left edge, within the containment bounds. -/
def ballC3w : Ball := ⟨0, 300, 40, -7, 3, none, false⟩

/-- Free ball overlapping the left edge, from the spec scenario. -/
def ballC4w : Ball := ⟨15, 300, 20, -5, 0, none, false⟩

/-- Free ball used for the resistance-formula comparison. -/
def ballC5 : Ball := ⟨400, 300, 50, 100, 0, none, false⟩

/-- Concrete drag state for the forced-release scenario. -/
def dsC6 : DragState := ⟨2, 3, 7, 9, 13, 14⟩

/-- Held ball overlapping the left edge. -/
def ballC6w : Ball := ⟨10, 300, 20, 3, 4, some dsC6, false⟩

/-- The spec's gravity scenario ball at rest. -/
def ballC7 : Ball := ⟨400, 300, 20, 0, 0, none, false⟩

/-- The gravity scenario ball after one tick. -/
def ballC7s : Ball := ⟨400, 301, 20, 0, 1, none, false⟩

/-- Two-ball registry for the selection idempotence check. -/
def stC8 : AppState := ⟨[⟨100, 100, 10, 0, 0, none, false⟩, ⟨200, 200, 30, 1, 2, none, true⟩], 1, 0⟩

/-- A draw record whose components are all `1/2`. -/
def drawsHalf : Draws := ⟨1/2, 1/2, 1/2, 1/2, 1/2⟩

/-- One-ball registry for the randomize-range check. -/
def stC9w : AppState := ⟨[⟨7, 8, 9, 10, 11, none, false⟩], 1, 42⟩

/-- A free ball about to be grabbed. -/
def ballC10 : Ball := ⟨100, 100, 20, 0, 0, none, false⟩

/-- Registry holding a ball that is being dragged. -/
def stC10 : AppState := ⟨[ballC10.start_drag 105 105], 1, 20⟩

/-- A held ball with zero stored velocity. -/
def ballW10 : Ball := ⟨100, 100, 20, 0, 0, some ⟨5, 5, 3, 4, 0, 0⟩, false⟩

/-! Helper lemmas about the collision resolver. -/

lemma stop_drag_drag (b : Ball) : b.stop_drag.drag_state = none := by
  rcases hb : b.drag_state with _ | ds <;> simp [Ball.stop_drag, hb]

lemma release_of_none (b : Ball) (hb : b.drag_state = none) : release b = b := by
  simp [release, hb]

lemma release_of_some (b : Ball) (ds : DragState) (hb : b.drag_state = some ds) :
    release b = { b with vel_x := ds.vel_x, vel_y := ds.vel_y, drag_state := none } := by
  simp [release, Ball.stop_drag, hb]

@[simp] lemma release_cx (b : Ball) : (release b).cx = b.cx := by
  rcases hb : b.drag_state with _ | ds <;> simp [release, Ball.stop_drag, hb]

@[simp] lemma release_cy (b : Ball) : (release b).cy = b.cy := by
  rcases hb : b.drag_state with _ | ds <;> simp [release, Ball.stop_drag, hb]

@[simp] lemma release_r (b : Ball) : (release b).r = b.r := by
  rcases hb : b.drag_state with _ | ds <;> simp [release, Ball.stop_drag, hb]

@[simp] lemma release_drag (b : Ball) : (release b).drag_state = none := by
  rcases hb : b.drag_state with _ | ds <;> simp [release, Ball.stop_drag, hb]

lemma collide_left_not (b : Ball) (hc : ¬ b.cx - b.r ≤ 0) : collide_left b = b := by
  unfold collide_left; exact if_neg hc

lemma collide_left_fired (b : Ball) (hc : b.cx - b.r ≤ 0) :
    collide_left b = { release b with vel_x := -(release b).vel_x, cx := 1 + (release b).r } := by
  unfold collide_left; rw [if_pos hc]

lemma collide_right_not (w : Int) (b : Ball) (hc : ¬ b.cx + b.r ≥ w) : collide_right w b = b := by
  unfold collide_right; exact if_neg hc

lemma collide_right_fired (w : Int) (b : Ball) (hc : b.cx + b.r ≥ w) :
    collide_right w b =
      { release b with vel_x := -(release b).vel_x, cx := w - 1 - (release b).r } := by
  unfold collide_right; rw [if_pos hc]

lemma collide_top_not (b : Ball) (hc : ¬ b.cy - b.r ≤ 0) : collide_top b = b := by
  unfold collide_top; exact if_neg hc

lemma collide_top_fired (b : Ball) (hc : b.cy - b.r ≤ 0) :
    collide_top b = { release b with vel_y := -(release b).vel_y, cy := 1 + (release b).r } := by
  unfold collide_top; rw [if_pos hc]

lemma collide_bottom_not (h : Int) (b : Ball) (hc : ¬ b.cy + b.r ≥ h) :
    collide_bottom h b = b := by
  unfold collide_bottom; exact if_neg hc

lemma collide_bottom_fired (h : Int) (b : Ball) (hc : b.cy + b.r ≥ h) :
    collide_bottom h b =
      { release b with vel_y := -(release b).vel_y, cy := h - 1 - (release b).r } := by
  unfold collide_bottom; rw [if_pos hc]

@[simp] lemma collide_left_cy (b : Ball) : (collide_left b).cy = b.cy := by
  unfold collide_left; split <;> simp

@[simp] lemma collide_left_r (b : Ball) : (collide_left b).r = b.r := by
  unfold collide_left; split <;> simp

@[simp] lemma collide_right_cy (w : Int) (b : Ball) : (collide_right w b).cy = b.cy := by
  unfold collide_right; split <;> simp

@[simp] lemma collide_right_r (w : Int) (b : Ball) : (collide_right w b).r = b.r := by
  unfold collide_right; split <;> simp

@[simp] lemma collide_top_cx (b : Ball) : (collide_top b).cx = b.cx := by
  unfold collide_top; split <;> simp

@[simp] lemma collide_top_r (b : Ball) : (collide_top b).r = b.r := by
  unfold collide_top; split <;> simp

@[simp] lemma collide_bottom_cx (h : Int) (b : Ball) : (collide_bottom h b).cx = b.cx := by
  unfold collide_bottom; split <;> simp

@[simp] lemma collide_bottom_r (h : Int) (b : Ball) : (collide_bottom h b).r = b.r := by
  unfold collide_bottom; split <;> simp

lemma collide_left_drag_none (b : Ball) (hb : b.drag_state = none) :
    (collide_left b).drag_state = none := by
  unfold collide_left; split <;> simp [hb]

lemma collide_right_drag_none (w : Int) (b : Ball) (hb : b.drag_state = none) :
    (collide_right w b).drag_state = none := by
  unfold collide_right; split <;> simp [hb]

lemma collide_top_drag_none (b : Ball) (hb : b.drag_state = none) :
    (collide_top b).drag_state = none := by
  unfold collide_top; split <;> simp [hb]

lemma collide_bottom_drag_none (h : Int) (b : Ball) (hb : b.drag_state = none) :
    (collide_bottom h b).drag_state = none := by
  unfold collide_bottom; split <;> simp [hb]

lemma collide_left_fired_drag (b : Ball) (hc : b.cx - b.r ≤ 0) :
    (collide_left b).drag_state = none := by
  rw [collide_left_fired b hc]; simp

lemma collide_right_fired_drag (w : Int) (b : Ball) (hc : b.cx + b.r ≥ w) :
    (collide_right w b).drag_state = none := by
  rw [collide_right_fired w b hc]; simp

lemma collide_top_fired_drag (b : Ball) (hc : b.cy - b.r ≤ 0) :
    (collide_top b).drag_state = none := by
  rw [collide_top_fired b hc]; simp

lemma collide_bottom_fired_drag (h : Int) (b : Ball) (hc : b.cy + b.r ≥ h) :
    (collide_bottom h b).drag_state = none := by
  rw [collide_bottom_fired h b hc]; simp

lemma x_bounds (w : Int) (b : Ball) (hw : 2 * b.r + 2 ≤ w) :
    1 ≤ (collide_right w (collide_left b)).cx - b.r ∧
      (collide_right w (collide_left b)).cx + b.r ≤ w - 1 := by
  by_cases hl : b.cx - b.r ≤ 0
  · have h1 : (collide_left b).cx = 1 + b.r := by
      rw [collide_left_fired b hl]; simp
    have h2 : collide_right w (collide_left b) = collide_left b := by
      apply collide_right_not
      rw [h1, collide_left_r]
      omega
    rw [h2, h1]
    omega
  · rw [collide_left_not b hl]
    by_cases hr2 : b.cx + b.r ≥ w
    · have h2 : (collide_right w b).cx = w - 1 - b.r := by
        rw [collide_right_fired w b hr2]; simp
      rw [h2]
      omega
    · rw [collide_right_not w b hr2]
      omega

lemma y_bounds (h : Int) (b : Ball) (hh : 2 * b.r + 2 ≤ h) :
    1 ≤ (collide_bottom h (collide_top b)).cy - b.r ∧
      (collide_bottom h (collide_top b)).cy + b.r ≤ h - 1 := by
  by_cases ht : b.cy - b.r ≤ 0
  · have h1 : (collide_top b).cy = 1 + b.r := by
      rw [collide_top_fired b ht]; simp
    have h2 : collide_bottom h (collide_top b) = collide_top b := by
      apply collide_bottom_not
      rw [h1, collide_top_r]
      omega
    rw [h2, h1]
    omega
  · rw [collide_top_not b ht]
    by_cases hb2 : b.cy + b.r ≥ h
    · have h2 : (collide_bottom h b).cy = h - 1 - b.r := by
        rw [collide_bottom_fired h b hb2]; simp
      rw [h2]
      omega
    · rw [collide_bottom_not h b hb2]
      omega

/-- Claim C3 as amended: provided the ball's diameter is at most each
viewport dimension minus 2, the resolver leaves the disk fully inside
`[0, width] × [0, height]` with every edge at least 1 unit inside. -/
theorem C3_containment_amended (w h : Int) (b : Ball) (hr : 0 < b.r)
    (hw : 2 * b.r + 2 ≤ w) (hh : 2 * b.r + 2 ≤ h) :
    1 ≤ (handle_ball w h b).cx - (handle_ball w h b).r ∧
    (handle_ball w h b).cx + (handle_ball w h b).r ≤ w - 1 ∧
    1 ≤ (handle_ball w h b).cy - (handle_ball w h b).r ∧
    (handle_ball w h b).cy + (handle_ball w h b).r ≤ h - 1 := by
  unfold handle_ball
  have hxr : (collide_right w (collide_left b)).r = b.r := by simp
  have hx := x_bounds w b hw
  have hfr : (collide_bottom h (collide_top (collide_right w (collide_left b)))).r = b.r := by
    simp
  have hfcx : (collide_bottom h (collide_top (collide_right w (collide_left b)))).cx
      = (collide_right w (collide_left b)).cx := by simp
  have hy := y_bounds h (collide_right w (collide_left b)) (by rw [hxr]; exact hh)
  rw [hxr] at hy
  rw [hfr, hfcx]
  exact ⟨hx.1, hx.2, hy.1, hy.2⟩

/-- Claim C3 fails as stated: a free ball of radius 500 in an 800×600
viewport still sticks out of the left edge after the resolver runs. -/
theorem C3_containment_counterexample :
    (handle_ball 800 600 ballC3c).cx - (handle_ball 800 600 ballC3c).r < 0 := by decide

/-- Witness for the amended claim C3 at a concrete left-edge violation. -/
theorem C3_containment_witness :
    1 ≤ (handle_ball 800 600 ballC3w).cx - (handle_ball 800 600 ballC3w).r ∧
    (handle_ball 800 600 ballC3w).cx + (handle_ball 800 600 ballC3w).r ≤ 800 - 1 ∧
    1 ≤ (handle_ball 800 600 ballC3w).cy - (handle_ball 800 600 ballC3w).r ∧
    (handle_ball 800 600 ballC3w).cy + (handle_ball 800 600 ballC3w).r ≤ 600 - 1 :=
  C3_containment_amended 800 600 ballC3w (by decide) (by decide) (by decide)

/-- Claim C4: a free ball that violates (only) the left boundary, in a
viewport wide enough for the 1-unit inset, leaves the resolver with
`vel_x` negated, `vel_y` unchanged, `cx = r + 1` and `cy` unchanged. -/
theorem C4_left_reflection (w h : Int) (b : Ball) (hfree : b.drag_state = none)
    (hl : b.cx - b.r ≤ 0) (hw : 2 * b.r + 2 ≤ w)
    (hty : 0 < b.cy - b.r) (hby : b.cy + b.r < h) :
    (handle_ball w h b).vel_x = -b.vel_x ∧ (handle_ball w h b).vel_y = b.vel_y ∧
    (handle_ball w h b).cx = b.r + 1 ∧ (handle_ball w h b).cy = b.cy := by
  unfold handle_ball
  have e1 : collide_left b = { b with vel_x := -b.vel_x, cx := 1 + b.r } := by
    rw [collide_left_fired b hl, release_of_none b hfree]
  rw [e1]
  have e2 : collide_right w { b with vel_x := -b.vel_x, cx := 1 + b.r }
      = { b with vel_x := -b.vel_x, cx := 1 + b.r } := by
    apply collide_right_not
    show ¬ 1 + b.r + b.r ≥ w
    omega
  rw [e2]
  have e3 : collide_top { b with vel_x := -b.vel_x, cx := 1 + b.r }
      = { b with vel_x := -b.vel_x, cx := 1 + b.r } := by
    apply collide_top_not
    show ¬ b.cy - b.r ≤ 0
    omega
  rw [e3]
  have e4 : collide_bottom h { b with vel_x := -b.vel_x, cx := 1 + b.r }
      = { b with vel_x := -b.vel_x, cx := 1 + b.r } := by
    apply collide_bottom_not
    show ¬ b.cy + b.r ≥ h
    omega
  rw [e4]
  refine ⟨rfl, rfl, ?_, rfl⟩
  show 1 + b.r = b.r + 1
  omega

/-- Witness for claim C4 at the spec's own scenario
(`x = 15`, `r = 20`, `vx = -5`, not held). -/
theorem C4_left_reflection_witness :
    (handle_ball 800 600 ballC4w).vel_x = 5 ∧ (handle_ball 800 600 ballC4w).cx = 21 ∧
    (handle_ball 800 600 ballC4w).vel_y = 0 ∧ (handle_ball 800 600 ballC4w).cy = 300 := by
  have h := C4_left_reflection 800 600 ballC4w rfl (by decide) (by decide) (by decide) (by decide)
  exact ⟨h.1.trans (by decide), h.2.2.1.trans (by decide), h.2.1.trans (by decide),
    h.2.2.2.trans (by decide)⟩

/-- Claim C6: a held ball that violates any boundary is force-released by
the resolver (it can never stay held through a boundary impact), and on a
pure left violation its committed drag-estimated velocity is what gets
reflected: the resolver ends with `vel_x = -ds.vel_x`, `vel_y = ds.vel_y`,
`cx = r + 1` and no drag state. -/
theorem C6_forced_release (w h : Int) (b : Ball) (ds : DragState)
    (hheld : b.drag_state = some ds) :
    ((b.cx - b.r ≤ 0 ∨ b.cx + b.r ≥ w ∨ b.cy - b.r ≤ 0 ∨ b.cy + b.r ≥ h) →
        (handle_ball w h b).drag_state = none) ∧
    (b.cx - b.r ≤ 0 → 2 * b.r + 2 ≤ w → 0 < b.cy - b.r → b.cy + b.r < h →
        (handle_ball w h b).vel_x = -ds.vel_x ∧ (handle_ball w h b).vel_y = ds.vel_y ∧
        (handle_ball w h b).cx = b.r + 1 ∧ (handle_ball w h b).drag_state = none) := by
  constructor
  · intro hviol
    unfold handle_ball
    by_cases hl : b.cx - b.r ≤ 0
    · apply collide_bottom_drag_none
      apply collide_top_drag_none
      apply collide_right_drag_none
      exact collide_left_fired_drag b hl
    · rw [collide_left_not b hl]
      by_cases hr2 : b.cx + b.r ≥ w
      · apply collide_bottom_drag_none
        apply collide_top_drag_none
        exact collide_right_fired_drag w b hr2
      · rw [collide_right_not w b hr2]
        by_cases ht : b.cy - b.r ≤ 0
        · apply collide_bottom_drag_none
          exact collide_top_fired_drag b ht
        · rw [collide_top_not b ht]
          have hb2 : b.cy + b.r ≥ h := by tauto
          exact collide_bottom_fired_drag h b hb2
  · intro hl hw hty hby
    unfold handle_ball
    have e1 : collide_left b =
        { b with vel_x := -ds.vel_x, vel_y := ds.vel_y, drag_state := none, cx := 1 + b.r } := by
      rw [collide_left_fired b hl, release_of_some b ds hheld]
    rw [e1]
    have e2 : collide_right w
        { b with vel_x := -ds.vel_x, vel_y := ds.vel_y, drag_state := none, cx := 1 + b.r }
        = { b with vel_x := -ds.vel_x, vel_y := ds.vel_y, drag_state := none, cx := 1 + b.r } := by
      apply collide_right_not
      show ¬ 1 + b.r + b.r ≥ w
      omega
    rw [e2]
    have e3 : collide_top
        { b with vel_x := -ds.vel_x, vel_y := ds.vel_y, drag_state := none, cx := 1 + b.r }
        = { b with vel_x := -ds.vel_x, vel_y := ds.vel_y, drag_state := none, cx := 1 + b.r } := by
      apply collide_top_not
      show ¬ b.cy - b.r ≤ 0
      omega
    rw [e3]
    have e4 : collide_bottom h
        { b with vel_x := -ds.vel_x, vel_y := ds.vel_y, drag_state := none, cx := 1 + b.r }
        = { b with vel_x := -ds.vel_x, vel_y := ds.vel_y, drag_state := none, cx := 1 + b.r } := by
      apply collide_bottom_not
      show ¬ b.cy + b.r ≥ h
      omega
    rw [e4]
    refine ⟨rfl, rfl, ?_, rfl⟩
    show 1 + b.r = b.r + 1
    omega

/-- Witness for claim C6: a held ball overlapping the left edge is
released with its drag-estimated velocity reflected. -/
theorem C6_forced_release_witness :
    (handle_ball 800 600 ballC6w).drag_state = none ∧
    (handle_ball 800 600 ballC6w).vel_x = -7 ∧
    (handle_ball 800 600 ballC6w).vel_y = 9 ∧
    (handle_ball 800 600 ballC6w).cx = 21 := by
  have h := C6_forced_release 800 600 ballC6w dsC6 rfl
  have h2 := h.2 (by decide) (by decide) (by decide) (by decide)
  exact ⟨h2.2.2.2, h2.1.trans (by decide), h2.2.1.trans (by decide), h2.2.2.1.trans (by decide)⟩

/-! Helper lemmas about list indexing for the registry operations. -/

lemma get_lt {α : Type} : ∀ (l : List α) (i : Nat), i < l.length → ∃ x, l[i]? = some x
  | [], _, hi => absurd hi (by simp)
  | x :: _, 0, _ => ⟨x, by simp⟩
  | _ :: xs, i + 1, hi => by
      obtain ⟨y, hy⟩ := get_lt xs i (by simpa using hi)
      exact ⟨y, by simpa using hy⟩

lemma mem_of_get {α : Type} : ∀ (l : List α) (i : Nat) (x : α), l[i]? = some x → x ∈ l
  | [], _, _, hx => by simp at hx
  | y :: ys, 0, x, hx => by
      simp at hx
      exact hx ▸ List.mem_cons_self y ys
  | y :: ys, i + 1, x, hx => List.mem_cons_of_mem y (mem_of_get ys i x (by simpa using hx))

lemma get_set_at {α : Type} (a : α) :
    ∀ (l : List α) (i : Nat), i < l.length → (l.set i a)[i]? = some a
  | [], _, hi => absurd hi (by simp)
  | _ :: _, 0, _ => by simp
  | _ :: xs, i + 1, hi => by simpa using get_set_at a xs i (by simpa using hi)

lemma mem_of_set {α : Type} (a x : α) :
    ∀ (l : List α) (i : Nat), x ∈ l.set i a → x = a ∨ x ∈ l
  | [], _, hx => Or.inr (by simpa using hx)
  | y :: ys, 0, hx => by
      rcases List.mem_cons.mp hx with h | h
      exacts [Or.inl h, Or.inr (List.mem_cons_of_mem y h)]
  | y :: ys, i + 1, hx => by
      rcases List.mem_cons.mp hx with h | h
      · exact Or.inr (h ▸ List.mem_cons_self y ys)
      · rcases mem_of_set a x ys i h with h2 | h2
        exacts [Or.inl h2, Or.inr (List.mem_cons_of_mem y h2)]

lemma countP_set_false {α : Type} (p : α → Bool) (a : α) :
    ∀ (l : List α) (i : Nat), (∀ x ∈ l, p x = false) → i < l.length →
      (l.set i a).countP p = if p a then 1 else 0
  | [], _, _, hi => absurd hi (by simp)
  | x :: xs, 0, hall, _ => by
      have hxs : xs.countP p = 0 :=
        List.countP_eq_zero.mpr (fun y hy => by simp [hall y (List.mem_cons_of_mem x hy)])
      simp [List.countP_cons, hxs]
  | x :: xs, i + 1, hall, hi => by
      have hrec := countP_set_false p a xs i
        (fun y hy => hall y (List.mem_cons_of_mem x hy)) (by simpa using hi)
      simp [List.countP_cons, hrec, hall x (List.mem_cons_self x xs)]

lemma strokes_false_map_clear (l : List Ball) : ∀ x ∈ l.map clear_stroke, x.stroke = false := by
  intro x hx
  rcases List.mem_map.mp hx with ⟨y, _, rfl⟩
  rfl

lemma select_ball_eq (st : AppState) (n : Nat) (b : Ball) (hb : st.balls[n - 1]? = some b) :
    select_ball st n =
      { balls := (st.balls.map clear_stroke).set (n - 1) { b with stroke := true },
        selector_value := n, size_range_value := b.r } := by
  unfold select_ball
  rw [hb]

/-- Claim C8: selecting a valid 1-based index twice leaves the same size
slider value as selecting it once, and in both cases exactly one ball is
highlighted. -/
theorem C8_select_idempotent (st : AppState) (n : Nat) (h1 : 1 ≤ n)
    (h2 : n - 1 < st.balls.length) :
    (select_ball (select_ball st n) n).size_range_value = (select_ball st n).size_range_value ∧
    highlight_count (select_ball st n) = 1 ∧
    highlight_count (select_ball (select_ball st n) n) = 1 := by
  obtain ⟨b, hb⟩ := get_lt st.balls (n - 1) h2
  have hs1 := select_ball_eq st n b hb
  have hget2 : (select_ball st n).balls[n - 1]? = some { b with stroke := true } := by
    rw [hs1]
    exact get_set_at _ _ _ (by simpa using h2)
  have hs2 := select_ball_eq (select_ball st n) n _ hget2
  refine ⟨?_, ?_, ?_⟩
  · rw [hs2, hs1]
  · rw [hs1]
    unfold highlight_count
    rw [countP_set_false _ _ _ _ (strokes_false_map_clear st.balls) (by simpa using h2)]
    rfl
  · rw [hs2]
    unfold highlight_count
    rw [countP_set_false _ _ _ _ (strokes_false_map_clear _)
      (by rw [List.length_map, hs1]; simpa using h2)]
    rfl

/-- Witness for claim C8 on a concrete two-ball registry. -/
theorem C8_select_idempotent_witness :
    (select_ball (select_ball stC8 2) 2).size_range_value = (select_ball stC8 2).size_range_value ∧
    highlight_count (select_ball stC8 2) = 1 ∧
    highlight_count (select_ball (select_ball stC8 2) 2) = 1 :=
  C8_select_idempotent stC8 2 (by decide) (by decide)

/-! Helper lemmas about the frame step. -/

lemma step_ball_of_held (gravity resistance : Bool) (mx my : Int) (b : Ball) (ds : DragState)
    (hb : b.drag_state = some ds) :
    step_ball gravity resistance mx my b =
      { b with cx := mx - ds.offset_x, cy := my - ds.offset_y,
               drag_state := some (ds.update_velocity mx my) } := by
  unfold step_ball
  simp [hb]

lemma step_ball_drag_of_none (gravity resistance : Bool) (mx my : Int) (b : Ball)
    (hb : b.drag_state = none) :
    (step_ball gravity resistance mx my b).drag_state = none := by
  unfold step_ball
  cases gravity <;> cases resistance <;> simp [hb] <;> split_ifs <;> simp [hb]

lemma collide_left_heldzero (b : Ball) (hz : HeldZero b) : HeldZero (collide_left b) := by
  by_cases hc : b.cx - b.r ≤ 0
  · intro hs
    rw [collide_left_fired_drag b hc] at hs
    simp at hs
  · rw [collide_left_not b hc]
    exact hz

lemma collide_right_heldzero (w : Int) (b : Ball) (hz : HeldZero b) :
    HeldZero (collide_right w b) := by
  by_cases hc : b.cx + b.r ≥ w
  · intro hs
    rw [collide_right_fired_drag w b hc] at hs
    simp at hs
  · rw [collide_right_not w b hc]
    exact hz

lemma collide_top_heldzero (b : Ball) (hz : HeldZero b) : HeldZero (collide_top b) := by
  by_cases hc : b.cy - b.r ≤ 0
  · intro hs
    rw [collide_top_fired_drag b hc] at hs
    simp at hs
  · rw [collide_top_not b hc]
    exact hz

lemma collide_bottom_heldzero (h : Int) (b : Ball) (hz : HeldZero b) :
    HeldZero (collide_bottom h b) := by
  by_cases hc : b.cy + b.r ≥ h
  · intro hs
    rw [collide_bottom_fired_drag h b hc] at hs
    simp at hs
  · rw [collide_bottom_not h b hc]
    exact hz

/-- Claim C2 as amended: `start_drag` zeroes the velocity and records the
pointer-to-center offsets, but the `DragState` stores `(0,0)` — not the
current pointer — as the previous pointer position, so the single
subsequent per-frame drag update estimates velocity `(px2, py2)` measured
from the origin, and `stop_drag` commits exactly that estimate and
discards the drag state. -/
theorem C2_drag_commit_amended (b : Ball) (gravity resistance : Bool)
    (px py px2 py2 : Int) :
    (b.start_drag px py).vel_x = 0 ∧ (b.start_drag px py).vel_y = 0 ∧
    (b.start_drag px py).drag_state.map DragState.offset_x = some (px - b.cx) ∧
    (b.start_drag px py).drag_state.map DragState.offset_y = some (py - b.cy) ∧
    (b.start_drag px py).drag_state.map DragState.pos_x = some 0 ∧
    (b.start_drag px py).drag_state.map DragState.pos_y = some 0 ∧
    (step_ball gravity resistance px2 py2 (b.start_drag px py)).drag_state.map DragState.vel_x
      = some px2 ∧
    (step_ball gravity resistance px2 py2 (b.start_drag px py)).drag_state.map DragState.vel_y
      = some py2 ∧
    (step_ball gravity resistance px2 py2 (b.start_drag px py)).stop_drag.vel_x = px2 ∧
    (step_ball gravity resistance px2 py2 (b.start_drag px py)).stop_drag.vel_y = py2 ∧
    (step_ball gravity resistance px2 py2 (b.start_drag px py)).stop_drag.drag_state = none := by
  have hds : (b.start_drag px py).drag_state
      = some (DragState.init (px - b.cx) (py - b.cy)) := rfl
  have hstep := step_ball_of_held gravity resistance px2 py2 (b.start_drag px py) _ hds
  refine ⟨rfl, rfl, rfl, rfl, rfl, rfl, ?_, ?_, ?_, ?_, ?_⟩ <;>
    rw [hstep] <;> simp [DragState.update_velocity, DragState.init, Ball.stop_drag]

/-- Claim C2 fails as stated: with ball center `(3,4)`, `start_drag` at
pointer `(10,20)` stores `(0,0)` — not `(10,20)` — as the last pointer
position, and the next update at `(11,21)` estimates velocity `11`, not
`11 - 10 = 1`, on the x component. -/
theorem C2_drag_commit_counterexample :
    (ballC2.start_drag 10 20).drag_state.map DragState.pos_x ≠ some 10 ∧
    (ballC2.start_drag 10 20).drag_state.map
        (fun ds => (ds.update_velocity 11 21).vel_x) ≠ some (11 - 10) := by
  decide

/-- Claim C10 as amended: under the drag and physics operations cited by
the claim (`start_drag`, the per-ball frame step, the boundary resolver,
`stop_drag`), a held ball always carries stored velocity `(0,0)`; the
invariant does not survive `infinite_improbability_drive`, which assigns
random velocities to held balls without releasing them. -/
theorem C10_held_velocity_amended (b : Ball) (gravity resistance : Bool)
    (mouse_x mouse_y w h : Int) :
    HeldZero (b.start_drag mouse_x mouse_y) ∧
    (HeldZero b → HeldZero (step_ball gravity resistance mouse_x mouse_y b)) ∧
    (HeldZero b → HeldZero (handle_ball w h b)) ∧
    HeldZero b.stop_drag := by
  refine ⟨?_, ?_, ?_, ?_⟩
  · intro _
    exact ⟨rfl, rfl⟩
  · intro hz
    rcases hb : b.drag_state with _ | ds
    · intro hs
      rw [step_ball_drag_of_none gravity resistance mouse_x mouse_y b hb] at hs
      simp at hs
    · intro _
      rw [step_ball_of_held gravity resistance mouse_x mouse_y b ds hb]
      exact hz (by rw [hb]; rfl)
  · intro hz
    unfold handle_ball
    exact collide_bottom_heldzero h _
      (collide_top_heldzero _ (collide_right_heldzero w _ (collide_left_heldzero _ hz)))
  · intro hs
    rw [stop_drag_drag b] at hs
    simp at hs

/-- Claim C10 fails as stated: randomizing while a ball is held leaves it
held with nonzero stored velocity. -/
theorem C10_held_velocity_counterexample :
    ¬ (∀ b' ∈ (infinite_improbability_drive (fun _ => drawsHalf) 800 600 stC10).balls,
        HeldZero b') := by
  intro hall
  have hrb : randomize_balls (fun _ => drawsHalf) 800 600 0 stC10.balls
      = [{ cx := 400, cy := 300, r := 78, vel_x := 25, vel_y := 25,
           drag_state := some (DragState.init 5 5), stroke := false }] := by
    simp [randomize_balls, stC10]
    norm_num [randomize_ball, ballC10, Ball.start_drag, drawsHalf, DragState.init, round_eq]
  have hget : ({ balls := randomize_balls (fun _ => drawsHalf) 800 600 0 stC10.balls,
                 selector_value := stC10.selector_value,
                 size_range_value := stC10.size_range_value } : AppState).balls[
          stC10.selector_value - 1]?
      = some { cx := 400, cy := 300, r := 78, vel_x := 25, vel_y := 25,
               drag_state := some (DragState.init 5 5), stroke := false } := by
    show (randomize_balls (fun _ => drawsHalf) 800 600 0 stC10.balls)[0]? = _
    rw [hrb]
    simp
  have hsel := select_ball_eq
    { balls := randomize_balls (fun _ => drawsHalf) 800 600 0 stC10.balls,
        selector_value := stC10.selector_value, size_range_value := stC10.size_range_value }
    stC10.selector_value _ hget
  have hdrive : (infinite_improbability_drive (fun _ => drawsHalf) 800 600 stC10).balls
      = [{ cx := 400, cy := 300, r := 78, vel_x := 25, vel_y := 25,
           drag_state := some (DragState.init 5 5), stroke := true }] := by
    unfold infinite_improbability_drive
    rw [hsel]
    show ((randomize_balls (fun _ => drawsHalf) 800 600 0 stC10.balls).map clear_stroke).set
        (stC10.selector_value - 1) _ = _
    rw [hrb]
    simp [clear_stroke, stC10]
  have hb := hall _ (by rw [hdrive]; exact List.mem_cons_self _ _)
  exact absurd ((hb rfl).1) (by decide)

/-- Witness for the amended claim C10 on a concrete held zero-velocity
ball. -/
theorem C10_held_velocity_witness :
    HeldZero (step_ball true true 5 5 ballW10) ∧ HeldZero (handle_ball 800 600 ballW10) :=
  ⟨(C10_held_velocity_amended ballW10 true true 5 5 800 600).2.1 (by decide),
   (C10_held_velocity_amended ballW10 true true 5 5 800 600).2.2.1 (by decide)⟩

/-! Helper lemmas about the randomize effect. -/

lemma round_draw_bounds (q : ℚ) (m : Int) (h0 : 0 ≤ q) (h1 : q < 1) (hm : 0 ≤ m) :
    0 ≤ round (q * (m : ℚ)) ∧ round (q * (m : ℚ)) ≤ m := by
  have hm' : (0 : ℚ) ≤ (m : ℚ) := by exact_mod_cast hm
  have hqm0 : 0 ≤ q * (m : ℚ) := mul_nonneg h0 hm'
  have hqm1 : q * (m : ℚ) ≤ (m : ℚ) := mul_le_of_le_one_left hm' h1.le
  constructor
  · rw [round_eq]
    exact Int.le_floor.mpr (by push_cast; linarith)
  · rw [round_eq]
    have hlt : ⌊q * (m : ℚ) + 1 / 2⌋ < m + 1 := Int.floor_lt.mpr (by push_cast; linarith)
    omega

lemma length_randomize_balls (draws : Nat → Draws) (w h : Int) :
    ∀ (i : Nat) (l : List Ball), (randomize_balls draws w h i l).length = l.length
  | _, [] => rfl
  | i, b :: rest => by
      simp only [randomize_balls, List.length_cons]
      exact congrArg (· + 1) (length_randomize_balls draws w h (i + 1) rest)

lemma mem_randomize_balls (draws : Nat → Draws) (w h : Int) :
    ∀ (i : Nat) (l : List Ball) (x : Ball), x ∈ randomize_balls draws w h i l →
      ∃ j b, b ∈ l ∧ x = randomize_ball (draws j) w h b
  | _, [], x, hx => absurd hx (by simp [randomize_balls])
  | i, b :: rest, x, hx => by
      rcases List.mem_cons.mp hx with hh | hh
      · exact ⟨i, b, List.mem_cons_self b rest, hh⟩
      · obtain ⟨j, c, hc, hxc⟩ := mem_randomize_balls draws w h (i + 1) rest x hh
        exact ⟨j, c, List.mem_cons_of_mem b hc, hxc⟩

lemma randomize_in_range (d : Draws) (w h : Int) (b : Ball) (hd : ValidDraws d)
    (hw : 0 ≤ w) (hh : 0 ≤ h) : InRange w h (randomize_ball d w h b) := by
  obtain ⟨h1, h2, h3, h4, h5, h6, h7, h8, h9, h10⟩ := hd
  have hcx := round_draw_bounds d.dcx w h1 h2 hw
  have hcy := round_draw_bounds d.dcy h h3 h4 hh
  have hrr := round_draw_bounds d.dr 145 h5 h6 (by norm_num)
  have hvx := round_draw_bounds d.dvx 50 h7 h8 (by norm_num)
  have hvy := round_draw_bounds d.dvy 50 h9 h10 (by norm_num)
  norm_num at hrr hvx hvy
  refine ⟨?_, ?_, ?_, ?_, ?_, ?_, ?_, ?_, ?_, ?_⟩
  · show 5 ≤ round (d.dr * 145) + 5
    omega
  · show round (d.dr * 145) + 5 ≤ 150
    omega
  · exact hcx.1
  · exact hcx.2
  · exact hcy.1
  · exact hcy.2
  · exact hvx.1
  · exact hvx.2
  · exact hvy.1
  · exact hvy.2

lemma inRange_clear (w h : Int) (b : Ball) (hb : InRange w h b) :
    InRange w h (clear_stroke b) := hb

lemma inRange_stroke_true (w h : Int) (b : Ball) (hb : InRange w h b) :
    InRange w h { b with stroke := true } := hb

/-- Claim C9: whatever the draws in `[0,1)`, the randomize effect leaves
every ball with radius in `[5,150]`, center within the viewport, and
non-negative velocity components at most 50; the size slider is then
resynced to the selected ball's (new) radius. -/
theorem C9_randomize_ranges (draws : Nat → Draws) (w h : Int) (st : AppState)
    (hw : 0 ≤ w) (hh : 0 ≤ h) (hd : ∀ i, ValidDraws (draws i))
    (hsel : st.selector_value - 1 < st.balls.length) :
    (∀ b' ∈ (infinite_improbability_drive draws w h st).balls, InRange w h b') ∧
    ((infinite_improbability_drive draws w h st).balls[
        (infinite_improbability_drive draws w h st).selector_value - 1]?).map Ball.r
      = some (infinite_improbability_drive draws w h st).size_range_value := by
  have hlen := length_randomize_balls draws w h 0 st.balls
  obtain ⟨b1, hb1⟩ := get_lt (randomize_balls draws w h 0 st.balls) (st.selector_value - 1)
    (by omega)
  have hdrive : infinite_improbability_drive draws w h st =
      { balls := ((randomize_balls draws w h 0 st.balls).map clear_stroke).set
          (st.selector_value - 1) { b1 with stroke := true },
        selector_value := st.selector_value, size_range_value := b1.r } := by
    unfold infinite_improbability_drive
    exact select_ball_eq _ st.selector_value b1 hb1
  have hmem_range : ∀ b' ∈ randomize_balls draws w h 0 st.balls, InRange w h b' := by
    intro b' hb'
    obtain ⟨j, c, _, rfl⟩ := mem_randomize_balls draws w h 0 st.balls b' hb'
    exact randomize_in_range (draws j) w h c (hd j) hw hh
  constructor
  · intro b' hb'
    rw [hdrive] at hb'
    rcases mem_of_set _ _ _ _ hb' with rfl | hmem
    · exact inRange_stroke_true w h b1
        (hmem_range b1 (mem_of_get (randomize_balls draws w h 0 st.balls) _ b1 hb1))
    · rcases List.mem_map.mp hmem with ⟨c, hc, rfl⟩
      exact inRange_clear w h c (hmem_range c hc)
  · rw [hdrive]
    show (((randomize_balls draws w h 0 st.balls).map clear_stroke).set
        (st.selector_value - 1) { b1 with stroke := true })[st.selector_value - 1]?.map Ball.r
      = some b1.r
    rw [get_set_at _ _ _ (by rw [List.length_map]; omega)]
    rfl

/-- Witness for claim C9 on a one-ball registry with all draws `1/2` in a
100×100 viewport. -/
theorem C9_randomize_ranges_witness :
    (∀ b' ∈ (infinite_improbability_drive (fun _ => drawsHalf) 100 100 stC9w).balls,
        InRange 100 100 b') ∧
    ((infinite_improbability_drive (fun _ => drawsHalf) 100 100 stC9w).balls[
        (infinite_improbability_drive (fun _ => drawsHalf) 100 100 stC9w).selector_value - 1]?).map
        Ball.r
      = some (infinite_improbability_drive (fun _ => drawsHalf) 100 100 stC9w).size_range_value :=
  C9_randomize_ranges (fun _ => drawsHalf) 100 100 stC9w (by decide) (by decide)
    (fun _ => by norm_num [ValidDraws, drawsHalf]) (by decide)

/-! Helper lemmas for evaluating the resistance acceleration. -/

lemma round_half_up (x : ℝ) (n : ℤ) (h1 : (n : ℝ) ≤ x + 1 / 2) (h2 : x + 1 / 2 < (n : ℝ) + 1) :
    round x = n := by
  rw [round_eq]
  exact Int.floor_eq_iff.mpr ⟨h1, h2⟩

lemma sqrt5000_lt : Real.sqrt 5000 < 71 := by
  have h71 : (71 : ℝ) = Real.sqrt (71 ^ 2) := (Real.sqrt_sq (by norm_num)).symm
  rw [h71]
  exact Real.sqrt_lt_sqrt (by norm_num) (by norm_num)

lemma lt_sqrt5000 : (211 : ℝ) / 3 < Real.sqrt 5000 := by
  have hq : (211 : ℝ) / 3 = Real.sqrt ((211 / 3) ^ 2) := (Real.sqrt_sq (by positivity)).symm
  rw [hq]
  exact Real.sqrt_lt_sqrt (by positivity) (by norm_num)

lemma x_accel_C1 : x_accel ballC1 = -106 := by
  have hvy : (ballC1.vel_y : ℝ) = 50 := by norm_num [ballC1]
  have hvx : (ballC1.vel_x : ℝ) = -50 := by norm_num [ballC1]
  have hr : (ballC1.r : ℝ) = 150 := by norm_num [ballC1]
  unfold x_accel
  rw [hvy, hvx, hr, show (50 : ℝ) ^ 2 + (-50 : ℝ) ^ 2 = 5000 by norm_num]
  apply round_half_up
  · have h1 := sqrt5000_lt
    push_cast
    nlinarith [h1]
  · have h2 := lt_sqrt5000
    push_cast
    nlinarith [h2]

lemma y_accel_C1 : y_accel ballC1 = 106 := by
  have hvy : (ballC1.vel_y : ℝ) = 50 := by norm_num [ballC1]
  have hvx : (ballC1.vel_x : ℝ) = -50 := by norm_num [ballC1]
  have hr : (ballC1.r : ℝ) = 150 := by norm_num [ballC1]
  unfold y_accel
  rw [hvy, hvx, hr, show (50 : ℝ) ^ 2 + (-50 : ℝ) ^ 2 = 5000 by norm_num]
  apply round_half_up
  · have h2 := lt_sqrt5000
    push_cast
    nlinarith [h2]
  · have h1 := sqrt5000_lt
    push_cast
    nlinarith [h1]

/-- Claim C1 is right and the code is wrong: the overshoot clamp compares
the signed acceleration, not its magnitude, against the absolute velocity
component.  At `vel = (-50, 50)`, `r = 150` the computed x acceleration is
`-106`, whose magnitude exceeds `|vel_x| = 50`, yet one resistance step
sets `vel_x = 56` (a sign flip that increases speed) instead of snapping
it to 0 as the claim — and the code's own comment — requires. -/
theorem C1_clamp_sign_flip_eval :
    x_accel ballC1 = -106 ∧ |x_accel ballC1| > |ballC1.vel_x| ∧
    (step_ball false true 0 0 ballC1).vel_x = 56 ∧
    (step_ball false true 0 0 ballC1).vel_x ≠ 0 := by
  have hx := x_accel_C1
  have hy := y_accel_C1
  have hdrag : ballC1.drag_state = none := rfl
  have hx2 : x_accel
      { cx := 400, cy := 300, r := 150, vel_x := -50, vel_y := 50,
        drag_state := none, stroke := false } = -106 := hx
  have hy2 : y_accel
      { cx := 400, cy := 300, r := 150, vel_x := -50, vel_y := 50,
        drag_state := none, stroke := false } = 106 := hy
  have hstep : step_ball false true 0 0 ballC1 =
      { cx := 456, cy := 300, r := 150, vel_x := 56, vel_y := 0,
        drag_state := none, stroke := false } := by
    unfold step_ball
    norm_num [hx2, hy2, hdrag, ballC1]
  refine ⟨hx, ?_, ?_, ?_⟩
  · rw [hx, show ballC1.vel_x = -50 from rfl]
    decide
  · rw [hstep]
  · rw [hstep]
    decide

lemma x_accel_C5 : x_accel ballC5 = 100 := by
  have hvy : (ballC5.vel_y : ℝ) = 0 := by norm_num [ballC5]
  have hvx : (ballC5.vel_x : ℝ) = 100 := by norm_num [ballC5]
  have hr : (ballC5.r : ℝ) = 50 := by norm_num [ballC5]
  unfold x_accel
  rw [hvy, hvx, hr, show (0 : ℝ) ^ 2 + (100 : ℝ) ^ 2 = 100 ^ 2 by norm_num,
    Real.sqrt_sq (by norm_num : (0:ℝ) ≤ 100)]
  apply round_half_up <;> push_cast <;> norm_num

lemma x_accel_spec_C5 : x_accel_spec ballC5 = 200 := by
  have hvy : (ballC5.vel_y : ℝ) = 0 := by norm_num [ballC5]
  have hvx : (ballC5.vel_x : ℝ) = 100 := by norm_num [ballC5]
  have hr : (ballC5.r : ℝ) = 50 := by norm_num [ballC5]
  unfold x_accel_spec
  rw [hvy, hvx, hr, show (0 : ℝ) ^ 2 + (100 : ℝ) ^ 2 = 100 ^ 2 by norm_num,
    Real.sqrt_sq (by norm_num : (0:ℝ) ≤ 100)]
  apply round_half_up <;> push_cast <;> norm_num

/-- Claim C5 fails as stated: the source multiplies by the radius, not by
the diameter.  At `vel = (100, 0)`, `r = 50` the code computes
acceleration 100 while the spec's `round(speed * vx * 0.0002 * 2r)`
formula gives 200. -/
theorem C5_accel_formula_counterexample :
    x_accel ballC5 = 100 ∧ x_accel_spec ballC5 = 200 ∧
    x_accel ballC5 ≠ x_accel_spec ballC5 := by
  refine ⟨x_accel_C5, x_accel_spec_C5, ?_⟩
  rw [x_accel_C5, x_accel_spec_C5]
  decide

/-- Claim C5 as amended: the per-component resistance acceleration equals
`round(speed * v * k * diameter)` with `k = 0.0001` and
`diameter = 2 * radius` (equivalently `0.0002 * radius`). -/
theorem C5_accel_formula_amended (b : Ball) :
    x_accel b = round (Real.sqrt ((b.vel_y : ℝ) ^ 2 + (b.vel_x : ℝ) ^ 2) * (b.vel_x : ℝ) *
        0.0001 * (2 * (b.r : ℝ))) ∧
    y_accel b = round (Real.sqrt ((b.vel_y : ℝ) ^ 2 + (b.vel_x : ℝ) ^ 2) * (b.vel_y : ℝ) *
        0.0001 * (2 * (b.r : ℝ))) := by
  constructor
  · unfold x_accel
    congr 1
    ring_nf
  · unfold y_accel
    congr 1
    ring_nf

/-- Claim C7: with gravity on and resistance off, one tick moves the
resting ball at `(400, 300)` with radius 20 to `(400, 301)` with velocity
`(0, 1)`, provided the viewport is large enough that no boundary fires. -/
theorem C7_gravity_tick (w h mouse_x mouse_y : Int) (hw : 420 < w) (hh : 321 < h) :
    advance_frame true false mouse_x mouse_y w h [ballC7] = [ballC7s] := by
  have hstep : step_ball true false mouse_x mouse_y ballC7 = ballC7s := by
    unfold step_ball
    norm_num [ballC7, ballC7s]
  unfold advance_frame handle_collisions
  simp only [List.map, hstep]
  have h1 : collide_left ballC7s = ballC7s :=
    collide_left_not ballC7s (by decide)
  have h2 : collide_right w ballC7s = ballC7s :=
    collide_right_not w ballC7s (show ¬ (400 : ℤ) + 20 ≥ w by omega)
  have h3 : collide_top ballC7s = ballC7s :=
    collide_top_not ballC7s (by decide)
  have h4 : collide_bottom h ballC7s = ballC7s :=
    collide_bottom_not h ballC7s (show ¬ (301 : ℤ) + 20 ≥ h by omega)
  unfold handle_ball
  rw [h1, h2, h3, h4]

/-- Witness for claim C7 in an 800×600 viewport. -/
theorem C7_gravity_tick_witness :
    advance_frame true false 0 0 800 600 [ballC7] = [ballC7s] :=
  C7_gravity_tick 800 600 0 0 (by decide) (by decide)

end BouncingBall
